import Mathlib

/-!
Verification of the CLI front end of the moltbot repository: argv parsing
helpers, the route-first fast dispatcher (`tryRouteCli`), the pre-action
hook, and the memory CLI (`memory status|index|search`).

Pure functions are translated directly from the TypeScript sources.  The
argv helper module (`src/cli/argv.ts`), `parsePositiveIntOrUndefined`
(`src/cli/program/helpers.ts`) and `withManager`/`formatErrorMessage`
(`src/cli/cli-utils.ts`) are not part of the provided sources (only their
tests and callers are), so those definitions are modelled from the spec,
as marked in their doc comments.  Effectful code (banner, config
readiness, handler invocation, logging, process exit code) is embedded as
explicit effect traces; external collaborators (the memory search
manager, the config loader) are supplied as oracle parameters.
-/

/-- Character-level prefix test, modelling JavaScript `String.startsWith`. -/
def strStartsWith (s p : String) : Bool :=
  p.toList.isPrefixOf s.toList

/-- Character-level drop, modelling JavaScript `String.slice(n)`. -/
def strDrop (s : String) (n : Nat) : String :=
  ⟨s.toList.drop n⟩

/-- Character count of a string. -/
def strLen (s : String) : Nat :=
  s.toList.length

/-- Character-level whitespace trim, modelling JavaScript `String.trim`. -/
def strTrim (s : String) : String :=
  ⟨((s.toList.dropWhile Char.isWhitespace).reverse.dropWhile Char.isWhitespace).reverse⟩

/-- Last `/`-separated component of a path, modelling `path.basename`. -/
def baseName (s : String) : String :=
  match (s.toList.splitOn '/').getLast? with
  | some l => ⟨l⟩
  | none => s

/-- Tri-state result of a flag-value lookup: a string value, `null`
(flag present but no usable value) or `undefined` (flag absent). -/
inductive FlagValue where
  | value (s : String)
  | nullV
  | undef
deriving DecidableEq, Repr

/-- `true` exactly on the `value` constructor mapped to `some`; `null` and
`undefined` both map to `none` (JavaScript callers treat both as "no
string value" once the `null` check has passed). -/
def FlagValue.toOption : FlagValue → Option String
  | .value s => some s
  | .nullV => none
  | .undef => none

/-- Whether the lookup produced the `null` ("present but unusable") signal. -/
def FlagValue.isNull : FlagValue → Bool
  | .nullV => true
  | _ => false

/-- A token is flag-shaped when it starts with `-`. -/
def isFlagToken (t : String) : Bool :=
  strStartsWith t "-"

/-- The four help/version tokens recognised by the CLI. -/
def helpVersionTokens : List String :=
  ["--help", "-h", "--version", "-V"]

/-- Left-to-right scan for a help/version token, stopping at the first
terminator token `--`. -/
def scanHelp : List String → Bool
  | [] => false
  | t :: rest =>
    if t = "--" then false
    else if t ∈ helpVersionTokens then true
    else scanHelp rest

/-- Modelled from the spec: `hasHelpOrVersion(argv)` (src/cli/argv.ts is
absent from the sources) is true iff a token equal to `--help`, `-h`,
`--version` or `-V` occurs at index 2 or later, before any terminator. -/
def hasHelpOrVersion (argv : List String) : Bool :=
  scanHelp (argv.drop 2)

/-- Modelled from the spec: `getCommandPath(argv, offset)` (src/cli/argv.ts
is absent) returns the run of tokens starting at `offset` up to the first
flag-shaped token or the terminator `--` (the terminator itself is
flag-shaped). -/
def getCommandPath (argv : List String) (offset : Nat) : List String :=
  (argv.drop offset).takeWhile (fun t => !(isFlagToken t))

/-- Modelled from the spec: `getPrimaryCommand(argv)` (src/cli/argv.ts is
absent) is the first element of `getCommandPath(argv, 2)`, or null. -/
def getPrimaryCommand (argv : List String) : Option String :=
  (getCommandPath argv 2).head?

/-- Modelled from the spec: `hasFlag(argv, name)` (src/cli/argv.ts is
absent) is true iff `name` appears as an exact token before any
terminator. -/
def hasFlag : List String → String → Bool
  | [], _ => false
  | t :: rest, name =>
    if t = "--" then false
    else if t = name then true
    else hasFlag rest name

/-- Modelled from the spec: `getFlagValue(argv, name)` (src/cli/argv.ts is
absent).  Scanning left to right and stopping at the terminator: a
`--name=value` token yields `value` (possibly empty); a bare `--name`
token yields the next token unless it is flag-shaped or missing, in which
case `null`; otherwise `undefined`. -/
def getFlagValue : List String → String → FlagValue
  | [], _ => .undef
  | t :: rest, name =>
    if t = "--" then .undef
    else if t = name then
      match rest with
      | [] => .nullV
      | next :: _ => if isFlagToken next then .nullV else .value next
    else if strStartsWith t (name ++ "=") then .value (strDrop t (strLen name + 1))
    else getFlagValue rest name

/-- Modelled from the spec: `isReadOnlyCommand(argv)` (src/cli/argv.ts is
absent) classifies the primary/secondary command path against the fixed
allow-list of read-only commands. -/
def isReadOnlyCommand (argv : List String) : Bool :=
  match getCommandPath argv 2 with
  | "health" :: _ => true
  | "status" :: _ => true
  | "sessions" :: _ => true
  | "agents" :: "list" :: _ => true
  | "memory" :: "status" :: _ => true
  | "memory" :: "search" :: _ => true
  | _ => false

/-- Options accepted by `buildParseArgv`. -/
structure BuildParseArgvOptions where
  programName : String
  rawArgs : Option (List String)
  fallbackArgv : Option (List String)
deriving DecidableEq, Repr

/-- Modelled from the spec: `buildParseArgv` (src/cli/argv.ts is absent)
reconstructs a canonical `[runtime, program, ...rest]` argv.  Raw launcher
args whose first element's basename equals the program name are a
direct-binary invocation and get a synthetic runtime element; other raw
args are a script-runner invocation, passed through unchanged; a fallback
token array is wrapped with synthetic runtime and program elements. -/
def buildParseArgv (opts : BuildParseArgvOptions) : List String :=
  match opts.rawArgs with
  | some (first :: rest) =>
    if baseName first = opts.programName then
      "node" :: opts.programName :: rest
    else
      first :: rest
  | some [] => ["node", opts.programName]
  | none =>
    match opts.fallbackArgv with
    | some l => "node" :: opts.programName :: l
    | none => ["node", opts.programName]

/-- Value of a decimal digit character. -/
def digitVal (c : Char) : Nat :=
  c.toNat - 48

/-- Decimal value of a nonempty all-digit character list. -/
def digitsToNat (l : List Char) : Nat :=
  l.foldl (fun n c => n * 10 + digitVal c) 0

/-- Parse a string as a decimal natural number: every character must be a
digit and the string must be nonempty. -/
def strToNat? (s : String) : Option Nat :=
  if s.toList ≠ [] ∧ s.toList.all Char.isDigit then some (digitsToNat s.toList)
  else none

/-- Modelled from the spec: `parsePositiveIntOrUndefined`
(src/cli/program/helpers.ts is absent) parses its argument as a positive
integer, yielding `undefined` for an absent argument or a value that does
not parse as a positive integer. -/
def parsePositiveIntOrUndefined : Option String → Option Nat
  | none => none
  | some s =>
    match strToNat? s with
    | some n => if 0 < n then some n else none
    | none => none

/-- The five fast-path combinations of the route-first dispatch table,
as a predicate on the command path. -/
def isFastPath (path : List String) : Bool :=
  let primary := path.headD ""
  let secondary := path[1]?
  primary == "health" || primary == "status" || primary == "sessions" ||
    (primary == "agents" && secondary == some "list") ||
    (primary == "memory" && secondary == some "status")

/-- Tokens none of which is the terminator, the flag name, or a
`name=`-prefixed token: such a run is skipped by `getFlagValue`. -/
def flagFree : List String → String → Bool
  | [], _ => true
  | t :: ts, name =>
    !(t == "--") && !(t == name) && !(strStartsWith t (name ++ "=")) && flagFree ts name

/-- Tokens none of which is the flag name or a `name=`-prefixed token. -/
def nameFree : List String → String → Bool
  | [], _ => true
  | t :: ts, name =>
    !(t == name) && !(strStartsWith t (name ++ "=")) && nameFree ts name

/-- A handler invocation of the route-first dispatcher, carrying exactly
the options object the source passes to the handler. -/
inductive HandlerCall where
  | health (json : Bool) (timeoutMs : Option Nat) (verbose : Bool)
  | status (json deep all usage : Bool) (timeoutMs : Option Nat) (verbose : Bool)
  | sessions (json : Bool) (store active : Option String)
  | agentsList (json bindings : Bool)
  | memoryStatus (agent : Option String) (json deep idx verbose : Bool)
deriving DecidableEq, Repr

/-- Observable effects of `tryRouteCli`, in program order: banner emission,
configuration-readiness check (with its `migrateState` flag), plugin
registry load, global verbosity set, handler invocation. -/
inductive Effect where
  | banner
  | configReady (migrateState : Bool)
  | pluginRegistry
  | verboseSet (v : Bool)
  | handler (h : HandlerCall)
deriving DecidableEq, Repr

/-- Translation of `tryRouteCli` (src/unnamed/part_001).  The truthiness of
the `CLAWDBOT_DISABLE_ROUTE_FIRST` environment variable is passed in as
`disabled`; the asynchronous external calls are recorded as effects and
the returned Boolean is paired with the effect trace. -/
def tryRouteCli (disabled : Bool) (argv : List String) : Bool × List Effect :=
  if disabled then (false, [])
  else if hasHelpOrVersion argv then (false, [])
  else
    let path := getCommandPath argv 2
    let primary := path.headD ""
    let secondary := path[1]?
    if primary == "" then (false, [])
    else if primary == "health" then
      let pre := [Effect.banner, Effect.configReady false, Effect.pluginRegistry]
      let json := hasFlag argv "--json"
      let verbose := hasFlag argv "--verbose" || hasFlag argv "--debug"
      let timeout := getFlagValue argv "--timeout"
      if timeout.isNull then (false, pre)
      else
        let timeoutMs := parsePositiveIntOrUndefined timeout.toOption
        (true, pre ++ [Effect.verboseSet verbose,
          Effect.handler (HandlerCall.health json timeoutMs verbose)])
    else if primary == "status" then
      let pre := [Effect.banner, Effect.configReady false, Effect.pluginRegistry]
      let json := hasFlag argv "--json"
      let deep := hasFlag argv "--deep"
      let all := hasFlag argv "--all"
      let usage := hasFlag argv "--usage"
      let verbose := hasFlag argv "--verbose" || hasFlag argv "--debug"
      let timeout := getFlagValue argv "--timeout"
      if timeout.isNull then (false, pre)
      else
        let timeoutMs := parsePositiveIntOrUndefined timeout.toOption
        (true, pre ++ [Effect.verboseSet verbose,
          Effect.handler (HandlerCall.status json deep all usage timeoutMs verbose)])
    else if primary == "sessions" then
      let pre := [Effect.banner, Effect.configReady false]
      let json := hasFlag argv "--json"
      let verbose := hasFlag argv "--verbose"
      let store := getFlagValue argv "--store"
      if store.isNull then (false, pre)
      else
        let active := getFlagValue argv "--active"
        if active.isNull then (false, pre)
        else
          (true, pre ++ [Effect.verboseSet verbose,
            Effect.handler (HandlerCall.sessions json store.toOption active.toOption)])
    else if primary == "agents" && secondary == some "list" then
      let pre := [Effect.banner, Effect.configReady true]
      let json := hasFlag argv "--json"
      let bindings := hasFlag argv "--bindings"
      (true, pre ++ [Effect.handler (HandlerCall.agentsList json bindings)])
    else if primary == "memory" && secondary == some "status" then
      let agent := getFlagValue argv "--agent"
      if agent.isNull then (false, [Effect.banner])
      else
        let json := hasFlag argv "--json"
        let deep := hasFlag argv "--deep"
        let idx := hasFlag argv "--index"
        let verbose := hasFlag argv "--verbose"
        (true, [Effect.banner,
          Effect.handler (HandlerCall.memoryStatus agent.toOption json deep idx verbose)])
    else (false, [])

/-- Whether an effect trace contains no handler invocation. -/
def handlerFree (t : List Effect) : Bool :=
  t.all fun e =>
    match e with
    | .handler _ => false
    | _ => true

/-- The `migrateState` flags of the configuration-readiness calls in a
route-first effect trace, in order. -/
def configFlags (t : List Effect) : List Bool :=
  t.filterMap fun e =>
    match e with
    | .configReady b => some b
    | _ => none

/-- One entry of the configured agents list (`cfg.agents.list`). -/
structure AgentEntry where
  id : String
deriving DecidableEq, Repr

/-- The `agents` section of the configuration. -/
structure AgentsSection where
  list : List AgentEntry
deriving DecidableEq, Repr

/-- The slice of the loaded configuration the memory CLI reads: the
optional agents section, plus the result of the external
`resolveDefaultAgentId` collaborator, carried as a field. -/
structure Config where
  agents : Option AgentsSection
  defaultAgentId : String
deriving DecidableEq, Repr

/-- Modelled from the spec: `resolveDefaultAgentId` (src/agents/agent-scope.ts
is absent; it is an external collaborator) is represented by the
`defaultAgentId` configuration field. -/
def resolveDefaultAgentId (cfg : Config) : String :=
  cfg.defaultAgentId

/-- Translation of `resolveAgent` (src/unnamed/part_000): the trimmed
`--agent` value when non-blank, else the default agent id. -/
def resolveAgent (cfg : Config) (agent : Option String) : String :=
  let trimmed := (agent.map strTrim).getD ""
  if trimmed ≠ "" then trimmed
  else resolveDefaultAgentId cfg

/-- Translation of `resolveAgentIds` (src/unnamed/part_000): the trimmed
`--agent` value when non-blank; otherwise the ids of the configured agents
list (dropping falsy, i.e. empty, ids) when that list is nonempty;
otherwise the single default agent id. -/
def resolveAgentIds (cfg : Config) (agent : Option String) : List String :=
  let trimmed := (agent.map strTrim).getD ""
  if trimmed ≠ "" then [trimmed]
  else
    let list := (cfg.agents.map AgentsSection.list).getD []
    if list.length > 0 then (list.map AgentEntry.id).filter (fun s => s ≠ "")
    else [resolveDefaultAgentId cfg]

/-- Outcome of a `sync` or `close` call: success, or a raised error
carried as its formatted message (modelling `formatErrorMessage`). -/
inductive SyncOutcome where
  | ok
  | error (msg : String)
deriving DecidableEq, Repr

/-- Outcome of a `search` call: the rendered hits, or a raised error
carried as its formatted message. -/
inductive SearchOutcome where
  | ok (hits : List String)
  | error (msg : String)
deriving DecidableEq, Repr

/-- Oracle for one manager's external behaviour during a command: the
outcomes of its `sync`, `search` and `close` calls, plus the embedding
probe result. -/
structure ManagerBehavior where
  syncResult : SyncOutcome
  searchResult : SearchOutcome
  closeResult : SyncOutcome
  embeddingOk : Bool
deriving DecidableEq, Repr

/-- Oracle for `getMemorySearchManager` on one agent id: either no manager
(memory search unavailable, with an optional message) or a manager with
the given behaviour. -/
inductive ManagerAcq where
  | missing (error : Option String)
  | available (b : ManagerBehavior)
deriving DecidableEq, Repr

/-- Observable effects of the memory CLI commands, in program order. -/
inductive MemEffect where
  | configReady (migrateState : Bool)
  | verboseSet (v : Bool)
  | log (msg : String)
  | err (msg : String)
  | managerGet (agentId : String)
  | probeVector (agentId : String)
  | probeEmbedding (agentId : String)
  | syncCall (agentId : String)
  | searchCall (agentId : String) (query : String)
  | closeCall (agentId : String)
  | setExitCode (n : Nat)
  | statusReport (agentId : String) (indexError : Option String)
  | jsonReport (agentIds : List String)
  | verboseHeader (agentId : String)
  | searchOutput (hits : List String)
  | jsonSearch (hits : List String)
deriving DecidableEq, Repr

/-- Options object of the memory CLI commands (`MemoryCommandOptions`
plus the index command's `force`). -/
structure MemoryCommandOptions where
  agent : Option String
  json : Bool
  deep : Bool
  idx : Bool
  verbose : Bool
  force : Bool
deriving DecidableEq, Repr

/-- Modelled from the spec: the scoped release part of `withManager`
(src/cli/cli-utils.ts is absent).  The manager is always closed after the
run; a close failure is reported on the error channel and sets the
process exit code without escalating to the primary operation. -/
def closeEffects (agentId : String) (b : ManagerBehavior) : List MemEffect :=
  match b.closeResult with
  | .ok => [.closeCall agentId]
  | .error e =>
    [.closeCall agentId, .err ("Memory manager close failed: " ++ e), .setExitCode 1]

/-- Result collected per agent by `runMemoryStatus` (the fields of the
`allResults` entries that the claims observe). -/
structure AgentStatusResult where
  agentId : String
  indexError : Option String
deriving DecidableEq, Repr

/-- The per-agent body of the `runMemoryStatus` loop
(src/unnamed/part_000): acquire the manager (log and skip when missing),
probe (vector only, or vector plus embeddings when deep), optionally sync
with the index error caught, reported and turned into exit code 1, close,
and collect the result.  The progress-bar rendering and the `status()`
payload are abstracted away; probe calls are recorded as effects. -/
def statusAgentStep (opts : MemoryCommandOptions) (mgr : String → ManagerAcq)
    (agentId : String) : List MemEffect × List AgentStatusResult :=
  match mgr agentId with
  | .missing e => ([.managerGet agentId, .log (e.getD "Memory search disabled.")], [])
  | .available b =>
    let deep := opts.deep || opts.idx
    let probeEffs :=
      if deep then [MemEffect.probeVector agentId, MemEffect.probeEmbedding agentId]
      else [MemEffect.probeVector agentId]
    let syncPart :=
      if deep && opts.idx then
        match b.syncResult with
        | .ok => ([MemEffect.syncCall agentId], (none : Option String))
        | .error e =>
          ([MemEffect.syncCall agentId, .err ("Memory index failed: " ++ e), .setExitCode 1],
            some e)
      else ([], none)
    ([MemEffect.managerGet agentId] ++ probeEffs ++ syncPart.1 ++ closeEffects agentId b,
      [{ agentId := agentId, indexError := syncPart.2 }])

/-- The reporting phase of `runMemoryStatus` (src/unnamed/part_000): one
JSON dump in `--json` mode, else for each collected result the optional
index completion/failure line followed by the rendered status block
(abstracted to a `statusReport` effect). -/
def statusReportPhase (opts : MemoryCommandOptions) (results : List AgentStatusResult) :
    List MemEffect :=
  if opts.json then [.jsonReport (results.map AgentStatusResult.agentId)]
  else
    results.flatMap fun r =>
      (if opts.idx then
        [MemEffect.log (match r.indexError with
          | some e => "Memory index failed: " ++ e
          | none => "Memory index complete.")]
      else []) ++ [MemEffect.statusReport r.agentId r.indexError]

/-- Translation of `runMemoryStatus` (src/unnamed/part_000): ensure config
readiness without state migration, set verbosity, resolve the agent ids,
run the per-agent loop, then report. -/
def runMemoryStatus (opts : MemoryCommandOptions) (cfg : Config)
    (mgr : String → ManagerAcq) : List MemEffect :=
  let steps := (resolveAgentIds cfg opts.agent).map (statusAgentStep opts mgr)
  [.configReady false, .verboseSet opts.verbose]
    ++ (steps.map Prod.fst).flatten
    ++ statusReportPhase opts (steps.map Prod.snd).flatten

/-- The per-agent body of the `memory index` action loop
(src/unnamed/part_000): acquire the manager (log and skip when missing),
optionally print the verbose header, sync with the whole body's error
caught, reported as `Memory index failed (<agent>): <msg>` and turned into
exit code 1, then close.  The elapsed/ETA progress labels are real-time
rendering and are not modelled. -/
def indexAgentStep (opts : MemoryCommandOptions) (mgr : String → ManagerAcq)
    (agentId : String) : List MemEffect :=
  match mgr agentId with
  | .missing e => [.managerGet agentId, .log (e.getD "Memory search disabled.")]
  | .available b =>
    let headerEffs := if opts.verbose then [MemEffect.verboseHeader agentId] else []
    let syncEffs :=
      match b.syncResult with
      | .ok => [MemEffect.syncCall agentId,
          .log ("Memory index updated (" ++ agentId ++ ").")]
      | .error e => [MemEffect.syncCall agentId,
          .err ("Memory index failed (" ++ agentId ++ "): " ++ e), .setExitCode 1]
    [MemEffect.managerGet agentId] ++ headerEffs ++ syncEffs ++ closeEffects agentId b

/-- Translation of the `memory index` command action
(src/unnamed/part_000): set verbosity, resolve the agent ids, and run the
per-agent loop. -/
def memoryIndexAction (opts : MemoryCommandOptions) (cfg : Config)
    (mgr : String → ManagerAcq) : List MemEffect :=
  [.verboseSet opts.verbose]
    ++ ((resolveAgentIds cfg opts.agent).map (indexAgentStep opts mgr)).flatten

/-- Translation of the `memory search` command action
(src/unnamed/part_000): resolve the single agent, acquire the manager (log
and skip when missing), search with the error caught, reported as
`Memory search failed: <msg>` and turned into exit code 1 (returning
before any output), else print the results, then close. -/
def memorySearchAction (query : String) (opts : MemoryCommandOptions) (cfg : Config)
    (mgr : String → ManagerAcq) : List MemEffect :=
  let agentId := resolveAgent cfg opts.agent
  match mgr agentId with
  | .missing e => [.managerGet agentId, .log (e.getD "Memory search disabled.")]
  | .available b =>
    let runEffs :=
      match b.searchResult with
      | .error e =>
        [MemEffect.searchCall agentId query, .err ("Memory search failed: " ++ e),
          .setExitCode 1]
      | .ok hits =>
        [MemEffect.searchCall agentId query] ++
          (if opts.json then [MemEffect.jsonSearch hits]
          else if hits.isEmpty then [MemEffect.log "No matches."]
          else [MemEffect.searchOutput hits])
    [MemEffect.managerGet agentId] ++ runEffs ++ closeEffects agentId b

/-- The agent ids whose manager acquisition a memory-CLI effect trace
records, in order: the agents the command actually operated on. -/
def processedAgents (t : List MemEffect) : List String :=
  t.filterMap fun e =>
    match e with
    | .managerGet a => some a
    | _ => none

/-- Whether a memory-CLI effect trace sets the process exit code to 1. -/
def hasExitFailure (t : List MemEffect) : Bool :=
  t.any fun e =>
    match e with
    | .setExitCode 1 => true
    | _ => false

/-- The `migrateState` flags of the configuration-readiness calls in a
memory-CLI effect trace, in order. -/
def memConfigFlags (t : List MemEffect) : List Bool :=
  t.filterMap fun e =>
    match e with
    | .configReady b => some b
    | _ => none

/-- Outcome of the pre-action hook after the process title is set and the
banner is emitted: return early on a help/version invocation, return
early on the doctor check, or ensure configuration readiness with the
given `migrateState` flag. -/
inductive PreActionOutcome where
  | skipHelpVersion
  | skipDoctor
  | ensure (migrateState : Bool)
deriving DecidableEq, Repr

/-- Translation of the guard logic of the `preAction` hook
(src/src/cli/program/preaction.ts): after the title and banner, stop on a
help/version token; stop when the head of the command path computed at
offset 1 is `doctor`; otherwise ensure configuration readiness, migrating
state exactly when the command is not classified read-only. -/
def preActionGuard (argv : List String) : PreActionOutcome :=
  if hasHelpOrVersion argv then .skipHelpVersion
  else if (getCommandPath argv 1).headD "" == "doctor" then .skipDoctor
  else .ensure (!(isReadOnlyCommand argv))

example : hasHelpOrVersion ["node", "clawdbot", "--help"] = true := by decide

example : hasHelpOrVersion ["node", "clawdbot", "-V"] = true := by decide

example : hasHelpOrVersion ["node", "clawdbot", "status"] = false := by decide

example : getCommandPath ["node", "clawdbot", "status", "--json"] 2 = ["status"] := by decide

example : getCommandPath ["node", "clawdbot", "agents", "list"] 2 = ["agents", "list"] := by decide

example : getCommandPath ["node", "clawdbot", "status", "--", "ignored"] 2 = ["status"] := by decide

example : getPrimaryCommand ["node", "clawdbot", "agents", "list"] = some "agents" := by decide

example : getPrimaryCommand ["node", "clawdbot"] = none := by decide

example : hasFlag ["node", "clawdbot", "status", "--json"] "--json" = true := by decide

example : hasFlag ["node", "clawdbot", "--", "--json"] "--json" = false := by decide

example : getFlagValue ["node", "clawdbot", "status", "--timeout", "5000"] "--timeout" = .value "5000" := by decide

example : getFlagValue ["node", "clawdbot", "status", "--timeout=2500"] "--timeout" = .value "2500" := by decide

example : getFlagValue ["node", "clawdbot", "status", "--timeout"] "--timeout" = .nullV := by decide

example : getFlagValue ["node", "clawdbot", "status", "--timeout", "--json"] "--timeout" = .nullV := by decide

example : getFlagValue ["node", "clawdbot", "--", "--timeout=99"] "--timeout" = .undef := by decide

example : buildParseArgv ⟨"clawdbot", some ["node", "clawdbot", "status"], none⟩ = ["node", "clawdbot", "status"] := by decide

example : buildParseArgv ⟨"clawdbot", some ["clawdbot", "status"], none⟩ = ["node", "clawdbot", "status"] := by decide

example : buildParseArgv ⟨"clawdbot", some ["bun", "src/entry.ts", "status"], none⟩ = ["bun", "src/entry.ts", "status"] := by decide

example : buildParseArgv ⟨"clawdbot", none, some ["status"]⟩ = ["node", "clawdbot", "status"] := by decide

example : tryRouteCli false ["node", "cb", "agents", "list", "--json"] =
    (true, [.banner, .configReady true, .handler (.agentsList true false)]) := by decide

example : (tryRouteCli false ["node", "cb", "frobnicate"]).1 = false := by decide

example : (tryRouteCli false ["node", "cb", "--help"]).1 = false := by decide

example : (tryRouteCli false ["node", "cb", "status", "--timeout"]).1 = false := by decide

example : tryRouteCli false ["node", "cb", "health", "--timeout=abc"] =
    (true, [.banner, .configReady false, .pluginRegistry, .verboseSet false,
      .handler (.health false none false)]) := by decide

example : tryRouteCli false ["node", "cb", "health", "--timeout", "250"] =
    (true, [.banner, .configReady false, .pluginRegistry, .verboseSet false,
      .handler (.health false (some 250) false)]) := by decide

example : (tryRouteCli true ["node", "cb", "health"]).1 = false := by decide

example : tryRouteCli false ["node", "cb", "memory", "status", "--agent"] =
    (false, [.banner]) := by decide

example :
    let cfg : Config := ⟨some ⟨[⟨"a"⟩, ⟨"b"⟩]⟩, "main"⟩
    resolveAgentIds cfg none = ["a", "b"] := by decide

example :
    let cfg : Config := ⟨some ⟨[⟨"a"⟩]⟩, "main"⟩
    resolveAgentIds cfg (some " x ") = ["x"] := by decide

example :
    let cfg : Config := ⟨none, "main"⟩
    resolveAgentIds cfg (some "  ") = ["main"] := by decide

example :
    let cfg : Config := ⟨some ⟨[⟨""⟩]⟩, "main"⟩
    resolveAgentIds cfg none = [] := by decide

example :
    let cfg : Config := ⟨some ⟨[⟨"a"⟩]⟩, "main"⟩
    resolveAgent cfg none = "main" := by decide

example : preActionGuard ["node", "clawdbot", "doctor"] = .ensure true := by decide

example : preActionGuard ["node", "clawdbot", "status"] = .ensure false := by decide

example : preActionGuard ["node", "clawdbot", "--help"] = .skipHelpVersion := by decide

example : preActionGuard ["clawdbot", "doctor"] = .skipDoctor := by decide

example :
    let cfg : Config := ⟨some ⟨[⟨"a"⟩, ⟨"b"⟩]⟩, "main"⟩
    let mgr : String → ManagerAcq := fun a =>
      if a = "a" then .available ⟨.error "boom", .ok [], .ok, true⟩
      else .available ⟨.ok, .ok [], .ok, true⟩
    memoryIndexAction ⟨none, false, false, false, false, false⟩ cfg mgr =
      [.verboseSet false,
        .managerGet "a", .syncCall "a", .err "Memory index failed (a): boom",
        .setExitCode 1, .closeCall "a",
        .managerGet "b", .syncCall "b", .log "Memory index updated (b).",
        .closeCall "b"] := by decide

theorem strStartsWith_append (p t : String) : strStartsWith (p ++ t) p = true := by
  have h : (p ++ t).toList = p.toList ++ t.toList := rfl
  unfold strStartsWith
  rw [h]
  simp [ List.isPrefixOf_iff_prefix]

theorem strLen_append_eq (name : String) : strLen (name ++ "=") = strLen name + 1 := by
  have h : (name ++ "=").toList = name.toList ++ ['='] := rfl
  simp [strLen, h]

theorem strDrop_append (p t : String) : strDrop (p ++ t) (strLen p) = t := by
  have h : (p ++ t).toList = p.toList ++ t.toList := rfl
  unfold strDrop strLen
  rw [h, List.drop_left]
  rfl

theorem eqform_ne_name (name v : String) : name ++ "=" ++ v ≠ name := by
  intro h
  have h2 : (name ++ "=" ++ v).toList.length = name.toList.length := by rw [h]
  have h3 : (name ++ "=" ++ v).toList = (name.toList ++ ['=']) ++ v.toList := rfl
  rw [h3] at h2
  simp only [List.length_append, List.length_cons, List.length_nil] at h2
  omega

theorem eqform_ne_terminator (name v : String) : name ++ "=" ++ v ≠ "--" := by
  intro h
  have h3 : (name ++ "=" ++ v).toList = (name.toList ++ ['=']) ++ v.toList := rfl
  have hm : '=' ∈ (name ++ "=" ++ v).toList := by
    rw [h3]
    simp
  rw [h] at hm
  simp at hm

theorem getFlagValue_append_skip (pre : List String) (name : String)
    (h : flagFree pre name = true) (rest : List String) :
    getFlagValue (pre ++ rest) name = getFlagValue rest name := by
  induction pre with
  | nil => rfl
  | cons t ts ih =>
    simp only [flagFree, Bool.and_eq_true, Bool.not_eq_eq_eq_not, Bool.not_true,
      beq_eq_false_iff_ne, ne_eq] at h
    obtain ⟨⟨⟨h1, h2⟩, h3⟩, h4⟩ := h
    simp only [List.cons_append, getFlagValue]
    rw [if_neg h1, if_neg h2, if_neg (by simp [h3])]
    exact ih h4

theorem hasFlag_append_terminator (pre post : List String) (name : String)
    (h : name ∉ pre) : hasFlag (pre ++ "--" :: post) name = false := by
  induction pre with
  | nil => rfl
  | cons t ts ih =>
    simp only [List.mem_cons, not_or] at h
    by_cases ht : t = "--"
    · simp [hasFlag, ht]
    · simp only [List.cons_append, hasFlag]
      rw [if_neg ht, if_neg (fun he => h.1 he.symm)]
      exact ih h.2

theorem scanHelp_append_terminator (l post : List String)
    (h : ∀ t ∈ l, t ∉ helpVersionTokens) : scanHelp (l ++ "--" :: post) = false := by
  induction l with
  | nil => rfl
  | cons t ts ih =>
    by_cases ht : t = "--"
    · simp [scanHelp, ht]
    · simp only [List.cons_append, scanHelp]
      rw [if_neg ht, if_neg (h t (by simp))]
      exact ih fun x hx => h x (by simp [hx])

theorem takeWhile_append_stop (p : String → Bool) (l post : List String) (x : String)
    (hx : p x = false) :
    (l ++ x :: post).takeWhile p = (l ++ [x]).takeWhile p := by
  induction l with
  | nil => simp [List.takeWhile_cons, hx]
  | cons a as ih =>
    by_cases h : p a
    · simp only [List.cons_append, List.takeWhile_cons, h]
      rw [ih]
    · simp [List.takeWhile_cons, h]

theorem filterMap_flatten_map {α β γ : Type} (f : α → Option β) (g : γ → List α)
    (l : List γ) :
    ((l.map g).flatten).filterMap f = (l.map fun x => (g x).filterMap f).flatten := by
  induction l with
  | nil => rfl
  | cons x xs ih => simp [List.filterMap_append, ih]

theorem flatten_map_singleton {α β : Type} (f : α → β) (l : List α) :
    (l.map fun x => [f x]).flatten = l.map f := by
  induction l with
  | nil => rfl
  | cons x xs ih => simp [ih]

/-- C3: `getFlagValue(argv, name)` returns the string after `=` for a
`--name=value` token (possibly empty); for a bare `--name` token it
returns the next token unless that token is flag-shaped or missing, in
which case it returns `null`; it returns `undefined` when the flag is
absent, and when the flag occurs only after the first `--` terminator. -/
theorem getFlagValue_contract :
    (∀ (pre post : List String) (name v : String), flagFree pre name = true →
      getFlagValue (pre ++ (name ++ "=" ++ v) :: post) name = .value v)
    ∧ (∀ (pre post : List String) (name next : String), flagFree pre name = true →
      name ≠ "--" → isFlagToken next = false →
      getFlagValue (pre ++ name :: next :: post) name = .value next)
    ∧ (∀ (pre : List String) (name : String), flagFree pre name = true → name ≠ "--" →
      getFlagValue (pre ++ [name]) name = .nullV)
    ∧ (∀ (pre post : List String) (name next : String), flagFree pre name = true →
      name ≠ "--" → isFlagToken next = true →
      getFlagValue (pre ++ name :: next :: post) name = .nullV)
    ∧ (∀ (argv : List String) (name : String), nameFree argv name = true →
      getFlagValue argv name = .undef)
    ∧ (∀ (pre post : List String) (name : String), flagFree pre name = true →
      getFlagValue (pre ++ "--" :: post) name = .undef) := by
  refine ⟨?_, ?_, ?_, ?_, ?_, ?_⟩
  · intro pre post name v h
    rw [getFlagValue_append_skip pre name h]
    simp only [getFlagValue]
    rw [if_neg (eqform_ne_terminator name v), if_neg (eqform_ne_name name v),
      if_pos (strStartsWith_append (name ++ "=") v)]
    have hd : strDrop (name ++ "=" ++ v) (strLen name + 1) = v := by
      rw [← strLen_append_eq name]
      exact strDrop_append (name ++ "=") v
    rw [hd]
  · intro pre post name next h hn hf
    rw [getFlagValue_append_skip pre name h]
    simp [getFlagValue, hn, hf]
  · intro pre name h hn
    rw [getFlagValue_append_skip pre name h]
    simp [getFlagValue, hn]
  · intro pre post name next h hn hf
    rw [getFlagValue_append_skip pre name h]
    simp [getFlagValue, hn, hf]
  · intro argv name h
    induction argv with
    | nil => rfl
    | cons t ts ih =>
      simp only [nameFree, Bool.and_eq_true, Bool.not_eq_eq_eq_not, Bool.not_true,
        beq_eq_false_iff_ne, ne_eq] at h
      obtain ⟨⟨h1, h2⟩, h3⟩ := h
      by_cases ht : t = "--"
      · simp [getFlagValue, ht]
      · simp only [getFlagValue]
        rw [if_neg ht, if_neg h1, if_neg (by simp [h2])]
        exact ih h3
  · intro pre post name h
    rw [getFlagValue_append_skip pre name h]
    rfl

/-- C3 witness: concrete instances of the `getFlagValue` contract. -/
theorem getFlagValue_contract_witness :
    getFlagValue (["node", "cb"] ++ ("--x" ++ "=" ++ "v") :: []) "--x" = .value "v"
    ∧ getFlagValue (["node", "cb"] ++ "--x" :: "v" :: []) "--x" = .value "v"
    ∧ getFlagValue (["node", "cb"] ++ ["--x"]) "--x" = .nullV
    ∧ getFlagValue (["node", "cb"] ++ "--x" :: "--json" :: []) "--x" = .nullV
    ∧ getFlagValue ["node", "cb", "status"] "--x" = .undef
    ∧ getFlagValue (["node", "cb"] ++ "--" :: ["--x=9"]) "--x" = .undef :=
  ⟨getFlagValue_contract.1 ["node", "cb"] [] "--x" "v" (by decide),
    getFlagValue_contract.2.1 ["node", "cb"] [] "--x" "v" (by decide) (by decide) (by decide),
    getFlagValue_contract.2.2.1 ["node", "cb"] "--x" (by decide) (by decide),
    getFlagValue_contract.2.2.2.1 ["node", "cb"] [] "--x" "--json" (by decide) (by decide)
      (by decide),
    getFlagValue_contract.2.2.2.2.1 ["node", "cb", "status"] "--x" (by decide),
    getFlagValue_contract.2.2.2.2.2 ["node", "cb"] ["--x=9"] "--x" (by decide)⟩

/-- C4 counterexample: the claim quantifies over every argv, but
`hasHelpOrVersion` scans from index 2, so on an argv whose first token is
already the terminator `--`, a help token occurring only after the
terminator is still interpreted and the function returns true, not
false. -/
theorem terminator_inertness_cex :
    ["--", "x", "-h"].headD "" = "--" ∧ hasHelpOrVersion ["--", "x", "-h"] = true := by
  decide

/-- C4 amended: tokens after the first `--` are never interpreted by
`hasFlag` or `getFlagValue` (unconditionally); `getCommandPath` at offset
`k` is unaffected by tokens after a terminator located at or beyond `k`;
and `hasHelpOrVersion` returns false for help tokens occurring only after
a terminator, provided the terminator is at index 2 or later (its scan
starts at index 2). -/
theorem terminator_inertness_amended :
    (∀ (pre post : List String) (name : String), name ∉ pre →
      hasFlag (pre ++ "--" :: post) name = false)
    ∧ (∀ (pre post : List String) (name : String), flagFree pre name = true →
      getFlagValue (pre ++ "--" :: post) name = .undef)
    ∧ (∀ (pre post : List String) (k : Nat), k ≤ pre.length →
      getCommandPath (pre ++ "--" :: post) k = getCommandPath (pre ++ ["--"]) k)
    ∧ (∀ pre post : List String, 2 ≤ pre.length → (∀ t ∈ pre, t ∉ helpVersionTokens) →
      hasHelpOrVersion (pre ++ "--" :: post) = false) := by
  refine ⟨hasFlag_append_terminator, ?_, ?_, ?_⟩
  · intro pre post name h
    rw [getFlagValue_append_skip pre name h]
    rfl
  · intro pre post k hk
    unfold getCommandPath
    rw [List.drop_append_of_le_length hk, List.drop_append_of_le_length hk]
    exact takeWhile_append_stop _ _ post "--" (by decide)
  · intro pre post h2 h
    unfold hasHelpOrVersion
    rw [List.drop_append_of_le_length h2]
    exact scanHelp_append_terminator _ post fun t ht => h t (List.mem_of_mem_drop ht)

/-- C4 witness: concrete instances of the terminator-inertness
properties. -/
theorem terminator_inertness_witness :
    hasFlag (["node", "cb"] ++ "--" :: ["--json"]) "--json" = false
    ∧ getFlagValue (["node", "cb"] ++ "--" :: ["--timeout=99"]) "--timeout" = .undef
    ∧ getCommandPath (["node", "cb", "status"] ++ "--" :: ["ignored"]) 2
      = getCommandPath (["node", "cb", "status"] ++ ["--"]) 2
    ∧ hasHelpOrVersion (["node", "cb", "status"] ++ "--" :: ["--help"]) = false :=
  ⟨terminator_inertness_amended.1 ["node", "cb"] ["--json"] "--json" (by decide),
    terminator_inertness_amended.2.1 ["node", "cb"] ["--timeout=99"] "--timeout" (by decide),
    terminator_inertness_amended.2.2.1 ["node", "cb", "status"] ["ignored"] 2 (by decide),
    terminator_inertness_amended.2.2.2 ["node", "cb", "status"] ["--help"] (by decide)
      (by decide)⟩

/-- C9: `buildParseArgv` returns its input unchanged under the
script-runner launcher style (first raw element is not the program), and
produces a `[synthetic runtime, program, ...rest]` array under the
direct-binary and fallback styles. -/
theorem buildParseArgv_styles :
    (∀ (pn r s : String) (rest : List String) (fb : Option (List String)),
      baseName r ≠ pn →
      buildParseArgv ⟨pn, some (r :: s :: rest), fb⟩ = r :: s :: rest)
    ∧ (∀ (pn r : String) (rest : List String) (fb : Option (List String)),
      baseName r = pn →
      buildParseArgv ⟨pn, some (r :: rest), fb⟩ = "node" :: pn :: rest)
    ∧ (∀ (pn : String) (l : List String),
      buildParseArgv ⟨pn, none, some l⟩ = "node" :: pn :: l) := by
  refine ⟨?_, ?_, ?_⟩
  · intro pn r s rest fb h
    simp [buildParseArgv, h]
  · intro pn r rest fb h
    simp [buildParseArgv, h]
  · intro pn l
    rfl

/-- C9 witness: the three launcher styles at the test inputs. -/
theorem buildParseArgv_styles_witness :
    buildParseArgv ⟨"clawdbot", some ("bun" :: "src/entry.ts" :: ["status"]), none⟩
      = "bun" :: "src/entry.ts" :: ["status"]
    ∧ buildParseArgv ⟨"clawdbot", some ("clawdbot" :: ["status"]), none⟩
      = "node" :: "clawdbot" :: ["status"]
    ∧ buildParseArgv ⟨"clawdbot", none, some ["status"]⟩ = "node" :: "clawdbot" :: ["status"] :=
  ⟨buildParseArgv_styles.1 "clawdbot" "bun" "src/entry.ts" ["status"] none (by decide),
    buildParseArgv_styles.2.1 "clawdbot" "clawdbot" ["status"] none (by decide),
    buildParseArgv_styles.2.2 "clawdbot" ["status"]⟩

/-- C7 counterexample: for the conventional argv
`["node", "clawdbot", "doctor"]` the invoked top-level command (the
primary command of the path at offset 2, per the spec's own definition)
is `doctor`, yet the hook does not stop: the source checks the command
path at offset 1, whose head here is the program name `clawdbot`, so the
hook goes on to ensure configuration readiness (with migration, since
`doctor` is not read-only). -/
theorem preaction_doctor_cex :
    getPrimaryCommand ["node", "clawdbot", "doctor"] = some "doctor"
    ∧ preActionGuard ["node", "clawdbot", "doctor"] = .ensure true := by
  decide

/-- C7 amended: the hook returns without ensuring configuration readiness
when a help/version token is present, or when the head of the command
path computed at offset 1 (argv position 1, the program slot of a
conventional argv) is `doctor`; in every other case it ensures readiness
with state migration enabled exactly when `isReadOnlyCommand(argv)` is
false. -/
theorem preaction_guard_amended :
    ∀ argv : List String,
      (hasHelpOrVersion argv = true → preActionGuard argv = .skipHelpVersion)
      ∧ (hasHelpOrVersion argv = false → (getCommandPath argv 1).headD "" = "doctor" →
        preActionGuard argv = .skipDoctor)
      ∧ (hasHelpOrVersion argv = false → (getCommandPath argv 1).headD "" ≠ "doctor" →
        preActionGuard argv = .ensure (!(isReadOnlyCommand argv))) := by
  intro argv
  refine ⟨?_, ?_, ?_⟩
  · intro h
    simp [preActionGuard, h]
  · intro h1 h2
    rw [List.headD_eq_head?_getD] at h2
    simp [preActionGuard, h1, h2]
  · intro h1 h2
    rw [List.headD_eq_head?_getD] at h2
    simp [preActionGuard, h1, h2]

/-- C7 witness: concrete instances of the three amended hook cases. -/
theorem preaction_guard_amended_witness :
    preActionGuard ["node", "clawdbot", "--help"] = .skipHelpVersion
    ∧ preActionGuard ["clawdbot", "doctor"] = .skipDoctor
    ∧ preActionGuard ["node", "clawdbot", "status"]
      = .ensure (!(isReadOnlyCommand ["node", "clawdbot", "status"])) :=
  ⟨(preaction_guard_amended ["node", "clawdbot", "--help"]).1 (by decide),
    (preaction_guard_amended ["clawdbot", "doctor"]).2.1 (by decide) (by decide),
    (preaction_guard_amended ["node", "clawdbot", "status"]).2.2 (by decide) (by decide)⟩

/-- C1: `tryRouteCli` returns true only when the command path at offset 2
begins with one of the five fast-path combinations; it returns false when
the escape-hatch environment variable is truthy, when a help/version
token is present, when the command path is empty, or when no table entry
matches; and the three concrete examples behave as specified, the
agents-list handler receiving `{json: true, bindings: false}`. -/
theorem tryRouteCli_dispatch_table :
    (∀ (d : Bool) (argv : List String),
      (tryRouteCli d argv).1 = true → isFastPath (getCommandPath argv 2) = true)
    ∧ (∀ argv : List String, (tryRouteCli true argv).1 = false)
    ∧ (∀ (d : Bool) (argv : List String), hasHelpOrVersion argv = true →
      (tryRouteCli d argv).1 = false)
    ∧ (∀ (d : Bool) (argv : List String), getCommandPath argv 2 = [] →
      (tryRouteCli d argv).1 = false)
    ∧ (∀ (d : Bool) (argv : List String), isFastPath (getCommandPath argv 2) = false →
      (tryRouteCli d argv).1 = false)
    ∧ tryRouteCli false ["node", "cb", "agents", "list", "--json"]
      = (true, [.banner, .configReady true, .handler (.agentsList true false)])
    ∧ (tryRouteCli false ["node", "cb", "frobnicate"]).1 = false
    ∧ (tryRouteCli false ["node", "cb", "--help"]).1 = false := by
  have c1 : ∀ (d : Bool) (argv : List String),
      (tryRouteCli d argv).1 = true → isFastPath (getCommandPath argv 2) = true := by
    intro d argv h
    cases d with
    | true => simp [tryRouteCli] at h
    | false =>
      simp only [tryRouteCli] at h
      by_cases hh : hasHelpOrVersion argv
      · simp [hh] at h
      · simp only [hh, Bool.false_eq_true, if_false] at h
        repeat' split at h
        all_goals simp_all [isFastPath]
  have c5 : ∀ (d : Bool) (argv : List String), isFastPath (getCommandPath argv 2) = false →
      (tryRouteCli d argv).1 = false := by
    intro d argv hf
    cases hr : (tryRouteCli d argv).1 with
    | false => rfl
    | true => exact absurd (c1 d argv hr) (by simp [hf])
  refine ⟨c1, ?_, ?_, ?_, c5, by decide, by decide, by decide⟩
  · intro argv
    simp [tryRouteCli]
  · intro d argv h
    cases d with
    | true => simp [tryRouteCli]
    | false => simp [tryRouteCli, h]
  · intro d argv h
    exact c5 d argv (by rw [h]; decide)

/-- C1 witness: concrete instances of the quantified dispatch-table
properties. -/
theorem tryRouteCli_dispatch_table_witness :
    isFastPath (getCommandPath ["node", "cb", "health"] 2) = true
    ∧ (tryRouteCli false ["node", "cb", "--version"]).1 = false
    ∧ (tryRouteCli false ["node", "cb"]).1 = false
    ∧ (tryRouteCli false ["node", "cb", "memory", "index"]).1 = false :=
  ⟨tryRouteCli_dispatch_table.1 false ["node", "cb", "health"] (by decide),
    tryRouteCli_dispatch_table.2.2.1 false ["node", "cb", "--version"] (by decide),
    tryRouteCli_dispatch_table.2.2.2.1 false ["node", "cb"] (by decide),
    tryRouteCli_dispatch_table.2.2.2.2.1 false ["node", "cb", "memory", "index"] (by decide)⟩

/-- C2: on every fast path, a value-flag lookup returning `null`
(`--timeout` on health and status, `--store`/`--active` on sessions,
`--agent` on memory status) makes `tryRouteCli` return false without
invoking any handler; in particular `status --timeout` with no following
value falls back. -/
theorem tryRouteCli_null_flag_fallback :
    (∀ (d : Bool) (argv : List String), (getCommandPath argv 2).headD "" = "health" →
      getFlagValue argv "--timeout" = .nullV →
      (tryRouteCli d argv).1 = false ∧ handlerFree (tryRouteCli d argv).2 = true)
    ∧ (∀ (d : Bool) (argv : List String), (getCommandPath argv 2).headD "" = "status" →
      getFlagValue argv "--timeout" = .nullV →
      (tryRouteCli d argv).1 = false ∧ handlerFree (tryRouteCli d argv).2 = true)
    ∧ (∀ (d : Bool) (argv : List String), (getCommandPath argv 2).headD "" = "sessions" →
      getFlagValue argv "--store" = .nullV ∨ getFlagValue argv "--active" = .nullV →
      (tryRouteCli d argv).1 = false ∧ handlerFree (tryRouteCli d argv).2 = true)
    ∧ (∀ (d : Bool) (argv : List String), (getCommandPath argv 2).headD "" = "memory" →
      getFlagValue argv "--agent" = .nullV →
      (tryRouteCli d argv).1 = false ∧ handlerFree (tryRouteCli d argv).2 = true)
    ∧ (tryRouteCli false ["node", "cb", "status", "--timeout"]).1 = false := by
  refine ⟨?_, ?_, ?_, ?_, by decide⟩
  · intro d argv hp ht
    cases d with
    | true => simp [tryRouteCli, handlerFree]
    | false =>
      by_cases hh : hasHelpOrVersion argv
      · simp [tryRouteCli, hh, handlerFree]
      · rw [List.headD_eq_head?_getD] at hp
        simp [tryRouteCli, hh, hp, ht, FlagValue.isNull, handlerFree]
  · intro d argv hp ht
    cases d with
    | true => simp [tryRouteCli, handlerFree]
    | false =>
      by_cases hh : hasHelpOrVersion argv
      · simp [tryRouteCli, hh, handlerFree]
      · rw [List.headD_eq_head?_getD] at hp
        simp [tryRouteCli, hh, hp, ht, FlagValue.isNull, handlerFree]
  · intro d argv hp ht
    cases d with
    | true => simp [tryRouteCli, handlerFree]
    | false =>
      by_cases hh : hasHelpOrVersion argv
      · simp [tryRouteCli, hh, handlerFree]
      · rw [List.headD_eq_head?_getD] at hp
        rcases ht with ht | ht
        · simp [tryRouteCli, hh, hp, ht, FlagValue.isNull, handlerFree]
        · by_cases hs : (getFlagValue argv "--store").isNull = true
          · simp [tryRouteCli, hh, hp, hs, handlerFree]
          · simp [tryRouteCli, hh, hp, hs, ht, FlagValue.isNull, handlerFree]
  · intro d argv hp ht
    cases d with
    | true => simp [tryRouteCli, handlerFree]
    | false =>
      by_cases hh : hasHelpOrVersion argv
      · simp [tryRouteCli, hh, handlerFree]
      · rw [List.headD_eq_head?_getD] at hp
        by_cases hsec : (getCommandPath argv 2)[1]? = some "status"
        · simp [tryRouteCli, hh, hp, hsec, ht, FlagValue.isNull, handlerFree]
        · simp [tryRouteCli, hh, hp, hsec, handlerFree]

/-- C2 witness: concrete null-value fallbacks on each fast path. -/
theorem tryRouteCli_null_flag_fallback_witness :
    (tryRouteCli false ["node", "cb", "health", "--timeout"]).1 = false
    ∧ (tryRouteCli false ["node", "cb", "status", "--timeout", "--json"]).1 = false
    ∧ (tryRouteCli false ["node", "cb", "sessions", "--store"]).1 = false
    ∧ (tryRouteCli false ["node", "cb", "memory", "status", "--agent"]).1 = false :=
  ⟨(tryRouteCli_null_flag_fallback.1 false ["node", "cb", "health", "--timeout"]
      (by decide) (by decide)).1,
    (tryRouteCli_null_flag_fallback.2.1 false ["node", "cb", "status", "--timeout", "--json"]
      (by decide) (by decide)).1,
    (tryRouteCli_null_flag_fallback.2.2.1 false ["node", "cb", "sessions", "--store"]
      (by decide) (Or.inl (by decide))).1,
    (tryRouteCli_null_flag_fallback.2.2.2.1 false ["node", "cb", "memory", "status", "--agent"]
      (by decide) (by decide)).1⟩

/-- C5 counterexample: on the health fast path a `--timeout` value that is
present but does not parse as a positive integer does NOT abort the fast
path: `tryRouteCli` returns true and the handler runs with no timeout. -/
theorem timeout_parse_abort_cex :
    (tryRouteCli false ["node", "cb", "health", "--timeout=abc"]).1 = true
    ∧ getFlagValue ["node", "cb", "health", "--timeout=abc"] "--timeout" = .value "abc"
    ∧ parsePositiveIntOrUndefined (some "abc") = none := by
  decide

/-- C5 amended: on the health and status fast paths the dispatcher aborts
only when the `--timeout` lookup returns `null` (flag present with no
usable value); whenever the lookup is non-null the handler is invoked,
with `timeoutMs` the positive-integer parse of the value — `undefined`
when the flag is absent or its value does not parse as a positive
integer. -/
theorem timeout_nonnull_routes :
    ∀ argv : List String, hasHelpOrVersion argv = false →
      ((getCommandPath argv 2).headD "" = "health" →
        getFlagValue argv "--timeout" ≠ .nullV →
        tryRouteCli false argv = (true, [.banner, .configReady false, .pluginRegistry,
          .verboseSet (hasFlag argv "--verbose" || hasFlag argv "--debug"),
          .handler (.health (hasFlag argv "--json")
            (parsePositiveIntOrUndefined (getFlagValue argv "--timeout").toOption)
            (hasFlag argv "--verbose" || hasFlag argv "--debug"))]))
      ∧ ((getCommandPath argv 2).headD "" = "status" →
        getFlagValue argv "--timeout" ≠ .nullV →
        tryRouteCli false argv = (true, [.banner, .configReady false, .pluginRegistry,
          .verboseSet (hasFlag argv "--verbose" || hasFlag argv "--debug"),
          .handler (.status (hasFlag argv "--json") (hasFlag argv "--deep")
            (hasFlag argv "--all") (hasFlag argv "--usage")
            (parsePositiveIntOrUndefined (getFlagValue argv "--timeout").toOption)
            (hasFlag argv "--verbose" || hasFlag argv "--debug"))])) := by
  intro argv hh
  have hiN : getFlagValue argv "--timeout" ≠ .nullV →
      (getFlagValue argv "--timeout").isNull = false := by
    intro ht
    cases hx : getFlagValue argv "--timeout" <;> simp_all [FlagValue.isNull]
  constructor
  · intro hp ht
    rw [List.headD_eq_head?_getD] at hp
    simp [tryRouteCli, hh, hp, hiN ht]
  · intro hp ht
    rw [List.headD_eq_head?_getD] at hp
    simp [tryRouteCli, hh, hp, hiN ht]

/-- C5 witness: the amended behaviour at the counterexample input — the
handler runs with `timeoutMs` undefined. -/
theorem timeout_nonnull_routes_witness :
    tryRouteCli false ["node", "cb", "health", "--timeout=abc"]
      = (true, [.banner, .configReady false, .pluginRegistry, .verboseSet false,
        .handler (.health false none false)]) :=
  (timeout_nonnull_routes ["node", "cb", "health", "--timeout=abc"] (by decide)).1
    (by decide) (by decide)

theorem filterMap_flatten_map_nil {α β γ : Type} (f : α → Option β) (g : γ → List α)
    (l : List γ) (h : ∀ x, (g x).filterMap f = []) :
    ((l.map g).flatten).filterMap f = [] := by
  induction l with
  | nil => rfl
  | cons a as ih => simp [List.filterMap_append, h a, ih]

theorem filterMap_flatten_map_one {α β γ : Type} (f : α → Option β) (g : γ → List α)
    (e : γ → β) (l : List γ) (h : ∀ x, (g x).filterMap f = [e x]) :
    ((l.map g).flatten).filterMap f = l.map e := by
  induction l with
  | nil => rfl
  | cons a as ih => simp [List.filterMap_append, h a, ih]

theorem memConfigFlags_statusAgentStep (opts : MemoryCommandOptions)
    (mgr : String → ManagerAcq) (a : String) :
    memConfigFlags (statusAgentStep opts mgr a).1 = [] := by
  cases hm : mgr a with
  | missing e => simp [statusAgentStep, hm, memConfigFlags]
  | available b =>
    obtain ⟨sy, se, cl, em⟩ := b
    cases sy <;> cases cl <;>
      by_cases hd : opts.deep <;> by_cases hi : opts.idx <;>
        simp [statusAgentStep, hm, closeEffects, memConfigFlags, hd, hi]

theorem filterMap_flatMap_nil {α β γ : Type} (f : α → Option β) (g : γ → List α)
    (l : List γ) (h : ∀ x, (g x).filterMap f = []) :
    (l.flatMap g).filterMap f = [] := by
  induction l with
  | nil => rfl
  | cons a as ih => simp [List.flatMap_cons, List.filterMap_append, h a, ih]

theorem memConfigFlags_statusReportPhase (opts : MemoryCommandOptions)
    (rs : List AgentStatusResult) :
    memConfigFlags (statusReportPhase opts rs) = [] := by
  by_cases hj : opts.json
  · simp [statusReportPhase, hj, memConfigFlags]
  · unfold statusReportPhase memConfigFlags
    rw [if_neg (by simp [hj])]
    apply filterMap_flatMap_nil
    intro x
    by_cases hi : opts.idx <;> simp [hi]

theorem processedAgents_statusAgentStep (opts : MemoryCommandOptions)
    (mgr : String → ManagerAcq) (a : String) :
    processedAgents (statusAgentStep opts mgr a).1 = [a] := by
  cases hm : mgr a with
  | missing e => simp [statusAgentStep, hm, processedAgents]
  | available b =>
    obtain ⟨sy, se, cl, em⟩ := b
    cases sy <;> cases cl <;>
      by_cases hd : opts.deep <;> by_cases hi : opts.idx <;>
        simp [statusAgentStep, hm, closeEffects, processedAgents, hd, hi]

theorem processedAgents_statusReportPhase (opts : MemoryCommandOptions)
    (rs : List AgentStatusResult) :
    processedAgents (statusReportPhase opts rs) = [] := by
  by_cases hj : opts.json
  · simp [statusReportPhase, hj, processedAgents]
  · unfold statusReportPhase processedAgents
    rw [if_neg (by simp [hj])]
    apply filterMap_flatMap_nil
    intro x
    by_cases hi : opts.idx <;> simp [hi]

theorem processedAgents_indexAgentStep (opts : MemoryCommandOptions)
    (mgr : String → ManagerAcq) (a : String) :
    processedAgents (indexAgentStep opts mgr a) = [a] := by
  cases hm : mgr a with
  | missing e => simp [indexAgentStep, hm, processedAgents]
  | available b =>
    obtain ⟨sy, se, cl, em⟩ := b
    cases sy <;> cases cl <;>
      by_cases hv : opts.verbose <;>
        simp [indexAgentStep, hm, closeEffects, processedAgents, hv]

theorem memConfigFlags_append (s t : List MemEffect) :
    memConfigFlags (s ++ t) = memConfigFlags s ++ memConfigFlags t := by
  unfold memConfigFlags
  rw [List.filterMap_append]

theorem processedAgents_append (s t : List MemEffect) :
    processedAgents (s ++ t) = processedAgents s ++ processedAgents t := by
  unfold processedAgents
  rw [List.filterMap_append]

theorem memConfigFlags_flatten_map (g : String → List MemEffect) (l : List String)
    (h : ∀ x, memConfigFlags (g x) = []) :
    memConfigFlags ((l.map g).flatten) = [] := by
  induction l with
  | nil => rfl
  | cons a as ih =>
    have ha := h a
    unfold memConfigFlags at ha ih ⊢
    simp [List.filterMap_append, ha, ih]

theorem processedAgents_flatten_map (g : String → List MemEffect) (l : List String)
    (h : ∀ x, processedAgents (g x) = [x]) :
    processedAgents ((l.map g).flatten) = l := by
  induction l with
  | nil => rfl
  | cons a as ih =>
    have ha := h a
    unfold processedAgents at ha ih ⊢
    simp [List.filterMap_append, ha, ih]

theorem memConfigFlags_runMemoryStatus (opts : MemoryCommandOptions) (cfg : Config)
    (mgr : String → ManagerAcq) :
    memConfigFlags (runMemoryStatus opts cfg mgr) = [false] := by
  simp only [runMemoryStatus, List.map_map, Function.comp_def]
  rw [memConfigFlags_append, memConfigFlags_append,
    memConfigFlags_flatten_map _ _ (fun a => memConfigFlags_statusAgentStep opts mgr a),
    memConfigFlags_statusReportPhase]
  rfl

theorem processedAgents_runMemoryStatus (opts : MemoryCommandOptions) (cfg : Config)
    (mgr : String → ManagerAcq) :
    processedAgents (runMemoryStatus opts cfg mgr) = resolveAgentIds cfg opts.agent := by
  simp only [runMemoryStatus, List.map_map, Function.comp_def]
  rw [processedAgents_append, processedAgents_append,
    processedAgents_flatten_map _ _ (fun a => processedAgents_statusAgentStep opts mgr a),
    processedAgents_statusReportPhase]
  simp [processedAgents]

theorem processedAgents_memoryIndexAction (opts : MemoryCommandOptions) (cfg : Config)
    (mgr : String → ManagerAcq) :
    processedAgents (memoryIndexAction opts cfg mgr) = resolveAgentIds cfg opts.agent := by
  simp only [memoryIndexAction]
  rw [processedAgents_append,
    processedAgents_flatten_map _ _ (fun a => processedAgents_indexAgentStep opts mgr a)]
  simp [processedAgents]

/-- C6: every fast path that `tryRouteCli` handles ensures configuration
readiness with its path-specific migration policy — `agents list` with
migration enabled, health/status/sessions with migration disabled, and
`memory status` performing no readiness call in the dispatcher itself but
always calling it with migration disabled inside `runMemoryStatus`. -/
theorem configReady_migration_policy :
    (∀ (d : Bool) (argv : List String), (tryRouteCli d argv).1 = true →
      (getCommandPath argv 2).headD "" = "health" →
      configFlags (tryRouteCli d argv).2 = [false])
    ∧ (∀ (d : Bool) (argv : List String), (tryRouteCli d argv).1 = true →
      (getCommandPath argv 2).headD "" = "status" →
      configFlags (tryRouteCli d argv).2 = [false])
    ∧ (∀ (d : Bool) (argv : List String), (tryRouteCli d argv).1 = true →
      (getCommandPath argv 2).headD "" = "sessions" →
      configFlags (tryRouteCli d argv).2 = [false])
    ∧ (∀ (d : Bool) (argv : List String), (tryRouteCli d argv).1 = true →
      (getCommandPath argv 2).headD "" = "agents" →
      configFlags (tryRouteCli d argv).2 = [true])
    ∧ (∀ (d : Bool) (argv : List String), (tryRouteCli d argv).1 = true →
      (getCommandPath argv 2).headD "" = "memory" →
      configFlags (tryRouteCli d argv).2 = [])
    ∧ (∀ (opts : MemoryCommandOptions) (cfg : Config) (mgr : String → ManagerAcq),
      memConfigFlags (runMemoryStatus opts cfg mgr) = [false]) := by
  refine ⟨?_, ?_, ?_, ?_, ?_, memConfigFlags_runMemoryStatus⟩
  · intro d argv h hp
    cases d with
    | true => simp [tryRouteCli] at h
    | false =>
      by_cases hh : hasHelpOrVersion argv
      · simp [tryRouteCli, hh] at h
      · rw [List.headD_eq_head?_getD] at hp
        by_cases ht : (getFlagValue argv "--timeout").isNull = true
        · simp [tryRouteCli, hh, hp, ht] at h
        · simp [tryRouteCli, hh, hp, ht, configFlags]
  · intro d argv h hp
    cases d with
    | true => simp [tryRouteCli] at h
    | false =>
      by_cases hh : hasHelpOrVersion argv
      · simp [tryRouteCli, hh] at h
      · rw [List.headD_eq_head?_getD] at hp
        by_cases ht : (getFlagValue argv "--timeout").isNull = true
        · simp [tryRouteCli, hh, hp, ht] at h
        · simp [tryRouteCli, hh, hp, ht, configFlags]
  · intro d argv h hp
    cases d with
    | true => simp [tryRouteCli] at h
    | false =>
      by_cases hh : hasHelpOrVersion argv
      · simp [tryRouteCli, hh] at h
      · rw [List.headD_eq_head?_getD] at hp
        by_cases hs : (getFlagValue argv "--store").isNull = true
        · simp [tryRouteCli, hh, hp, hs] at h
        · by_cases ha : (getFlagValue argv "--active").isNull = true
          · simp [tryRouteCli, hh, hp, hs, ha] at h
          · simp [tryRouteCli, hh, hp, hs, ha, configFlags]
  · intro d argv h hp
    cases d with
    | true => simp [tryRouteCli] at h
    | false =>
      by_cases hh : hasHelpOrVersion argv
      · simp [tryRouteCli, hh] at h
      · rw [List.headD_eq_head?_getD] at hp
        by_cases hsec : (getCommandPath argv 2)[1]? = some "list"
        · simp [tryRouteCli, hh, hp, hsec, configFlags]
        · simp [tryRouteCli, hh, hp, hsec] at h
  · intro d argv h hp
    cases d with
    | true => simp [tryRouteCli] at h
    | false =>
      by_cases hh : hasHelpOrVersion argv
      · simp [tryRouteCli, hh] at h
      · rw [List.headD_eq_head?_getD] at hp
        by_cases hsec : (getCommandPath argv 2)[1]? = some "status"
        · by_cases ha : (getFlagValue argv "--agent").isNull = true
          · simp [tryRouteCli, hh, hp, hsec, ha] at h
          · simp [tryRouteCli, hh, hp, hsec, ha, configFlags]
        · simp [tryRouteCli, hh, hp, hsec] at h

/-- C6 witness: the migration flags at concrete handled invocations, and
`runMemoryStatus` with a concrete oracle. -/
theorem configReady_migration_policy_witness :
    configFlags (tryRouteCli false ["node", "cb", "health"]).2 = [false]
    ∧ configFlags (tryRouteCli false ["node", "cb", "agents", "list"]).2 = [true]
    ∧ configFlags (tryRouteCli false ["node", "cb", "memory", "status"]).2 = []
    ∧ memConfigFlags (runMemoryStatus ⟨none, false, false, false, false, false⟩
        ⟨none, "main"⟩ (fun _ => ManagerAcq.missing none)) = [false] :=
  ⟨configReady_migration_policy.1 false ["node", "cb", "health"] (by decide) (by decide),
    configReady_migration_policy.2.2.2.1 false ["node", "cb", "agents", "list"]
      (by decide) (by decide),
    configReady_migration_policy.2.2.2.2.1 false ["node", "cb", "memory", "status"]
      (by decide) (by decide),
    configReady_migration_policy.2.2.2.2.2 ⟨none, false, false, false, false, false⟩
      ⟨none, "main"⟩ (fun _ => ManagerAcq.missing none)⟩

/-- C8: memory index and memory search errors are caught at the point of
invocation, logged on the error channel as a formatted message, and turn
the process exit code into 1 without propagating; in the multi-agent
index loop every resolved agent is processed regardless of any other
agent's failure, and a search failure produces no results output. -/
theorem memory_error_containment :
    (∀ (opts : MemoryCommandOptions) (cfg : Config) (mgr : String → ManagerAcq),
      processedAgents (memoryIndexAction opts cfg mgr) = resolveAgentIds cfg opts.agent)
    ∧ (∀ (opts : MemoryCommandOptions) (cfg : Config) (mgr : String → ManagerAcq)
        (a : String) (b : ManagerBehavior) (e : String),
      a ∈ resolveAgentIds cfg opts.agent → mgr a = .available b →
      b.syncResult = .error e →
      MemEffect.err ("Memory index failed (" ++ a ++ "): " ++ e)
          ∈ memoryIndexAction opts cfg mgr
        ∧ hasExitFailure (memoryIndexAction opts cfg mgr) = true)
    ∧ (∀ (q : String) (opts : MemoryCommandOptions) (cfg : Config)
        (mgr : String → ManagerAcq) (b : ManagerBehavior) (e : String),
      mgr (resolveAgent cfg opts.agent) = .available b →
      b.searchResult = .error e →
      MemEffect.err ("Memory search failed: " ++ e) ∈ memorySearchAction q opts cfg mgr
        ∧ hasExitFailure (memorySearchAction q opts cfg mgr) = true
        ∧ ∀ hits : List String,
          MemEffect.searchOutput hits ∉ memorySearchAction q opts cfg mgr
            ∧ MemEffect.jsonSearch hits ∉ memorySearchAction q opts cfg mgr) := by
  refine ⟨processedAgents_memoryIndexAction, ?_, ?_⟩
  · intro opts cfg mgr a b e ha hb he
    have hmem : MemEffect.err ("Memory index failed (" ++ a ++ "): " ++ e)
        ∈ indexAgentStep opts mgr a := by
      by_cases hv : opts.verbose <;> simp [indexAgentStep, hb, he, hv]
    have hmem2 : MemEffect.setExitCode 1 ∈ indexAgentStep opts mgr a := by
      by_cases hv : opts.verbose <;> simp [indexAgentStep, hb, he, hv]
    constructor
    · simp only [memoryIndexAction, List.mem_append, List.mem_flatten]
      exact Or.inr ⟨indexAgentStep opts mgr a, List.mem_map_of_mem _ ha, hmem⟩
    · simp only [hasExitFailure, List.any_eq_true]
      refine ⟨MemEffect.setExitCode 1, ?_, rfl⟩
      simp only [memoryIndexAction, List.mem_append, List.mem_flatten]
      exact Or.inr ⟨indexAgentStep opts mgr a, List.mem_map_of_mem _ ha, hmem2⟩
  · intro q opts cfg mgr b e hb he
    refine ⟨?_, ?_, ?_⟩
    · simp [memorySearchAction, hb, he]
    · simp only [hasExitFailure, List.any_eq_true]
      refine ⟨MemEffect.setExitCode 1, ?_, rfl⟩
      simp [memorySearchAction, hb, he]
    · intro hits
      constructor
      · cases hc : b.closeResult <;>
          simp [memorySearchAction, hb, he, closeEffects, hc]
      · cases hc : b.closeResult <;>
          simp [memorySearchAction, hb, he, closeEffects, hc]

/-- C8 witness: a concrete two-agent index run where the first agent's
sync fails and a concrete failing search. -/
theorem memory_error_containment_witness :
    processedAgents (memoryIndexAction ⟨none, false, false, false, false, false⟩
        ⟨some ⟨[⟨"a"⟩, ⟨"b"⟩]⟩, "main"⟩
        (fun x => if x = "a" then .available ⟨.error "boom", .ok [], .ok, true⟩
          else .available ⟨.ok, .ok [], .ok, true⟩))
      = resolveAgentIds ⟨some ⟨[⟨"a"⟩, ⟨"b"⟩]⟩, "main"⟩ none
    ∧ MemEffect.err ("Memory index failed (" ++ "a" ++ "): " ++ "boom")
      ∈ memoryIndexAction ⟨none, false, false, false, false, false⟩
        ⟨some ⟨[⟨"a"⟩, ⟨"b"⟩]⟩, "main"⟩
        (fun x => if x = "a" then .available ⟨.error "boom", .ok [], .ok, true⟩
          else .available ⟨.ok, .ok [], .ok, true⟩)
    ∧ MemEffect.err ("Memory search failed: " ++ "sboom")
      ∈ memorySearchAction "query" ⟨none, false, false, false, false, false⟩
        ⟨none, "main"⟩ (fun _ => .available ⟨.ok, .error "sboom", .ok, true⟩) :=
  ⟨memory_error_containment.1 ⟨none, false, false, false, false, false⟩
      ⟨some ⟨[⟨"a"⟩, ⟨"b"⟩]⟩, "main"⟩
      (fun x => if x = "a" then .available ⟨.error "boom", .ok [], .ok, true⟩
        else .available ⟨.ok, .ok [], .ok, true⟩),
    (memory_error_containment.2.1 ⟨none, false, false, false, false, false⟩
      ⟨some ⟨[⟨"a"⟩, ⟨"b"⟩]⟩, "main"⟩
      (fun x => if x = "a" then .available ⟨.error "boom", .ok [], .ok, true⟩
        else .available ⟨.ok, .ok [], .ok, true⟩)
      "a" ⟨.error "boom", .ok [], .ok, true⟩ "boom" (by decide) (by decide) rfl).1,
    (memory_error_containment.2.2 "query" ⟨none, false, false, false, false, false⟩
      ⟨none, "main"⟩ (fun _ => .available ⟨.ok, .error "sboom", .ok, true⟩)
      ⟨.ok, .error "sboom", .ok, true⟩ "sboom" rfl rfl).1⟩

/-- C10 counterexample: the claim says that with no `--agent` the memory
commands operate on every agent id in the configured agents list, but
`resolveAgentIds` filters out falsy (empty) ids: with a configured list
whose single entry has the empty id, the list of ids is `[""]` yet no
agent at all is operated on (and not the default agent either). -/
theorem resolveAgentIds_empty_id_cex :
    resolveAgentIds ⟨some ⟨[⟨""⟩]⟩, "main"⟩ none = []
    ∧ ((((⟨some ⟨[⟨""⟩]⟩, "main"⟩ : Config).agents.map AgentsSection.list).getD
        []).map AgentEntry.id) = [""]
    ∧ processedAgents (runMemoryStatus ⟨none, false, false, false, false, false⟩
        ⟨some ⟨[⟨""⟩]⟩, "main"⟩ (fun _ => ManagerAcq.missing none)) = [] := by
  decide

/-- C10 amended: with a non-blank `--agent` all three memory commands
operate on exactly the trimmed agent id; with no (or a blank) `--agent`,
memory status and memory index operate on the non-empty agent ids of the
configured agents list (falsy ids are dropped), or on the single default
agent when that list is empty, while memory search operates on exactly
the default agent. -/
theorem agent_selection_amended :
    (∀ (cfg : Config) (a : String), strTrim a ≠ "" →
      resolveAgentIds cfg (some a) = [strTrim a] ∧ resolveAgent cfg (some a) = strTrim a)
    ∧ (∀ (cfg : Config) (ag : Option String), (ag.map strTrim).getD "" = "" →
      resolveAgentIds cfg ag =
        (if ((cfg.agents.map AgentsSection.list).getD []).length > 0 then
          (((cfg.agents.map AgentsSection.list).getD []).map AgentEntry.id).filter
            (fun s => s ≠ "")
        else [resolveDefaultAgentId cfg])
      ∧ resolveAgent cfg ag = resolveDefaultAgentId cfg)
    ∧ (∀ (opts : MemoryCommandOptions) (cfg : Config) (mgr : String → ManagerAcq),
      processedAgents (runMemoryStatus opts cfg mgr) = resolveAgentIds cfg opts.agent)
    ∧ (∀ (opts : MemoryCommandOptions) (cfg : Config) (mgr : String → ManagerAcq),
      processedAgents (memoryIndexAction opts cfg mgr) = resolveAgentIds cfg opts.agent)
    ∧ (∀ (q : String) (opts : MemoryCommandOptions) (cfg : Config)
        (mgr : String → ManagerAcq),
      processedAgents (memorySearchAction q opts cfg mgr)
        = [resolveAgent cfg opts.agent]) := by
  refine ⟨?_, ?_, processedAgents_runMemoryStatus, processedAgents_memoryIndexAction, ?_⟩
  · intro cfg a h
    constructor <;> simp [resolveAgentIds, resolveAgent, h]
  · intro cfg ag h
    constructor <;> simp [resolveAgentIds, resolveAgent, h]
  · intro q opts cfg mgr
    cases hm : mgr (resolveAgent cfg opts.agent) with
    | missing e => simp [memorySearchAction, hm, processedAgents]
    | available b =>
      cases hs : b.searchResult with
      | error e =>
        cases hc : b.closeResult <;>
          simp [memorySearchAction, hm, hs, hc, closeEffects, processedAgents]
      | ok hits =>
        cases hc : b.closeResult <;> by_cases hj : opts.json <;>
          by_cases hhits : hits.isEmpty <;>
            simp [memorySearchAction, hm, hs, hc, hj, hhits, closeEffects, processedAgents]

/-- C10 witness: agent selection at concrete configurations. -/
theorem agent_selection_amended_witness :
    resolveAgentIds ⟨some ⟨[⟨"a"⟩]⟩, "main"⟩ (some " x ") = [strTrim " x "]
    ∧ resolveAgentIds ⟨some ⟨[⟨"a"⟩, ⟨"b"⟩]⟩, "main"⟩ none =
      (if (((⟨some ⟨[⟨"a"⟩, ⟨"b"⟩]⟩, "main"⟩ : Config).agents.map
          AgentsSection.list).getD []).length > 0 then
        ((((⟨some ⟨[⟨"a"⟩, ⟨"b"⟩]⟩, "main"⟩ : Config).agents.map
          AgentsSection.list).getD []).map AgentEntry.id).filter (fun s => s ≠ "")
      else [resolveDefaultAgentId ⟨some ⟨[⟨"a"⟩, ⟨"b"⟩]⟩, "main"⟩])
    ∧ processedAgents (memorySearchAction "q" ⟨none, false, false, false, false, false⟩
        ⟨none, "main"⟩ (fun _ => ManagerAcq.missing none))
      = [resolveAgent ⟨none, "main"⟩ none] :=
  ⟨(agent_selection_amended.1 ⟨some ⟨[⟨"a"⟩]⟩, "main"⟩ " x " (by decide)).1,
    (agent_selection_amended.2.1 ⟨some ⟨[⟨"a"⟩, ⟨"b"⟩]⟩, "main"⟩ none (by decide)).1,
    agent_selection_amended.2.2.2.2 "q" ⟨none, false, false, false, false, false⟩
      ⟨none, "main"⟩ (fun _ => ManagerAcq.missing none)⟩
